import Mathlib

/-!
Verification of the prompt-vault example scripts against their
natural-language specification.  Python strings are embedded as `List Char`;
the scripts' straight-line pipelines become explicit functions from the
outcomes of their external calls (file reads, HTTP fetches, model calls)
to the observable run result (messages emitted, exit taken, values recorded).
-/

set_option autoImplicit false

namespace PromptVault

/-- Convert a Lean string literal to the `List Char` representation used
throughout the development. -/
def str (s : String) : List Char := s.toList

/-- The characters Python `str.strip()` removes (ASCII whitespace). -/
def pySpace (c : Char) : Bool :=
  c = ' ' || c = '\t' || c = '\n' || c = '\r' || c = '\x0b' || c = '\x0c'

/-- Python `s.strip()`: drop leading and trailing whitespace. -/
def pyStrip (s : List Char) : List Char :=
  ((s.dropWhile pySpace).reverse.dropWhile pySpace).reverse

/-- Python `sep in s`: does `sep` occur as a contiguous substring of `s`?
(For the nonempty separators used here.) -/
def hasSub (sep : List Char) : List Char → Bool
  | [] => sep.isEmpty
  | c :: cs => sep.isPrefixOf (c :: cs) || hasSub sep cs

/-- The text before the first occurrence of `sep` in `s` (all of `s` when
`sep` does not occur): Python `s.split(sep)[0]`. -/
def takeBefore (sep : List Char) : List Char → List Char
  | [] => []
  | c :: cs =>
    if sep.isPrefixOf (c :: cs) then []
    else c :: takeBefore sep cs

/-- The text after the first occurrence of `sep` in `s` (empty when `sep`
does not occur).  `takeBefore sep (afterFirst sep s)` is Python
`s.split(sep)[1]` whenever `sep in s`. -/
def afterFirst (sep : List Char) : List Char → List Char
  | [] => []
  | c :: cs =>
    if sep.isPrefixOf (c :: cs) then (c :: cs).drop sep.length
    else afterFirst sep cs

/-- Python `text.split(chr(10))`: split on newline characters. -/
def splitNl : List Char → List (List Char)
  | [] => [[]]
  | c :: cs =>
    if c = '\n' then [] :: splitNl cs
    else
      match splitNl cs with
      | [] => [[c]]
      | l :: ls => (c :: l) :: ls

/-- The plain markdown fence marker. -/
def fence : List Char := str "```"

/-- The json-tagged markdown fence marker. -/
def fenceJson : List Char := str "```json"

/-- The backtick character (the head of both fence markers). -/
def btick : Char := fence.headD ' '

/-- The structured-output extractor shared verbatim by
`code_reviewer.analyze_diff`, `support_classifier.classify_email` and
`competitor_analyzer.extract_key_info`:

    if "```json" in text:
        text = text.split("```json")[1].split("```")[0].strip()
    elif "```" in text:
        text = text.split("```")[1].split("```")[0].strip()

`s.split(sep)[1]` (under the guard `sep in s`) is the segment between the
first occurrence of `sep` and the next non-overlapping one, i.e.
`takeBefore sep (afterFirst sep s)`; a following `.split(sep2)[0]` is
`takeBefore sep2`.  When no fence is present the text is left unchanged. -/
def extractStructured (text : List Char) : List Char :=
  if hasSub fenceJson text then
    pyStrip (takeBefore fence (takeBefore fenceJson (afterFirst fenceJson text)))
  else if hasSub fence text then
    pyStrip (takeBefore fence (takeBefore fence (afterFirst fence text)))
  else text

/-! ### JSON values and parsing

Models the Python `json` module on the fragment these scripts exchange:
objects, arrays, double-quoted strings with the basic escapes, integers,
booleans and `null`.  (Floats, exponents and unicode escapes never occur in
the theorems below and are omitted.)  `json.loads` rejects trailing
non-whitespace, which `jsonParse` reproduces. -/

/-- A parsed JSON value. -/
inductive JVal where
  | jnull : JVal
  | jbool : Bool → JVal
  | jnum : Int → JVal
  | jstr : List Char → JVal
  | jarr : List JVal → JVal
  | jobj : List (List Char × JVal) → JVal

/-- JSON whitespace (the characters `json.loads` skips between tokens). -/
def jsonWs (c : Char) : Bool :=
  c = ' ' || c = '\t' || c = '\n' || c = '\r'

/-- Skip JSON whitespace. -/
def skipWs (s : List Char) : List Char := s.dropWhile jsonWs

/-- Translate a JSON string escape character. -/
def escChar (c : Char) : Option Char :=
  if c = '"' then some '"'
  else if c = '\\' then some '\\'
  else if c = '/' then some '/'
  else if c = 'n' then some '\n'
  else if c = 't' then some '\t'
  else if c = 'r' then some '\r'
  else none

/-- Parse the body of a JSON string, after the opening quote; returns the
decoded characters and the input remaining after the closing quote. -/
def parseStringBody : List Char → Option (List Char × List Char)
  | [] => none
  | c :: cs =>
    if c = '"' then some ([], cs)
    else if c = '\\' then
      match cs with
      | [] => none
      | e :: cs' =>
        match escChar e with
        | none => none
        | some d =>
          match parseStringBody cs' with
          | none => none
          | some (b, r) => some (d :: b, r)
    else
      match parseStringBody cs with
      | none => none
      | some (b, r) => some (c :: b, r)

/-- Digit characters to the natural number they denote. -/
def digitsToNat (ds : List Char) : Nat :=
  ds.foldl (fun n d => 10 * n + (d.toNat - 48)) 0

/-- Parse a JSON integer (optional minus sign, one or more digits). -/
def parseNum (s : List Char) : Option (Int × List Char) :=
  match s with
  | '-' :: rest =>
    let ds := rest.takeWhile Char.isDigit
    if ds.isEmpty then none
    else some (-(digitsToNat ds : Int), rest.dropWhile Char.isDigit)
  | _ =>
    let ds := s.takeWhile Char.isDigit
    if ds.isEmpty then none
    else some ((digitsToNat ds : Int), s.dropWhile Char.isDigit)

mutual

/-- Parse one JSON value at the head of the input (fuel-indexed). -/
def parseVal : Nat → List Char → Option (JVal × List Char)
  | 0, _ => none
  | _ + 1, [] => none
  | fuel + 1, c :: cs =>
    if c = '\x7b' then parseObjFields fuel (skipWs cs) true
    else if c = '[' then parseArrElems fuel (skipWs cs) true
    else if c = '"' then
      match parseStringBody cs with
      | none => none
      | some (b, r) => some (.jstr b, r)
    else if (str "null").isPrefixOf (c :: cs) then
      some (.jnull, (c :: cs).drop 4)
    else if (str "true").isPrefixOf (c :: cs) then
      some (.jbool true, (c :: cs).drop 4)
    else if (str "false").isPrefixOf (c :: cs) then
      some (.jbool false, (c :: cs).drop 5)
    else
      match parseNum (c :: cs) with
      | none => none
      | some (n, r) => some (.jnum n, r)

/-- Parse the members of a JSON object after the opening brace (`first` is
true before any member has been read, so a closing brace is allowed). -/
def parseObjFields : Nat → List Char → Bool → Option (JVal × List Char)
  | 0, _, _ => none
  | _ + 1, [], _ => none
  | fuel + 1, c :: cs, first =>
    if c = '\x7d' && first then some (.jobj [], cs)
    else if c = '"' then
      match parseStringBody cs with
      | none => none
      | some (key, r1) =>
        match skipWs r1 with
        | ':' :: r2 =>
          match parseVal fuel (skipWs r2) with
          | none => none
          | some (v, r3) =>
            match skipWs r3 with
            | ',' :: r4 =>
              match parseObjFields fuel (skipWs r4) false with
              | some (.jobj fs, r5) => some (.jobj ((key, v) :: fs), r5)
              | _ => none
            | '\x7d' :: r4 => some (.jobj [(key, v)], r4)
            | _ => none
        | _ => none
    else none

/-- Parse the elements of a JSON array after the opening bracket. -/
def parseArrElems : Nat → List Char → Bool → Option (JVal × List Char)
  | 0, _, _ => none
  | _ + 1, [], _ => none
  | fuel + 1, c :: cs, first =>
    if c = ']' && first then some (.jarr [], cs)
    else
      match parseVal fuel (c :: cs) with
      | none => none
      | some (v, r1) =>
        match skipWs r1 with
        | ',' :: r2 =>
          match parseArrElems fuel (skipWs r2) false with
          | some (.jarr vs, r3) => some (.jarr (v :: vs), r3)
          | _ => none
        | ']' :: r2 => some (.jarr [v], r2)
        | _ => none

end

/-- Model of Python `json.loads`: parse a complete JSON document, rejecting
trailing non-whitespace; `none` models a raised `json.JSONDecodeError`. -/
def jsonParse (s : List Char) : Option JVal :=
  match parseVal (s.length + 1) (skipWs s) with
  | none => none
  | some (v, rest) => if (skipWs rest).isEmpty then some v else none

/-- Python `d[key]` on a parsed JSON object: `none` models a raised
`KeyError` (or `TypeError` when the value is not an object).  `json.loads`
keeps the last binding of a duplicated key, hence the reversed search. -/
def jLookup (v : JVal) (key : List Char) : Option JVal :=
  match v with
  | .jobj fs =>
    match fs.reverse.find? (fun p => p.1 == key) with
    | some p => some p.2
    | none => none
  | _ => none

/-! ### Process-level observables

Each script's straight-line `main` is embedded as a function from the
outcomes of its external calls to the run result.  `Python sys.exit(1)` and
uncaught exceptions become the `Except` error channel, carrying the exit
status and the diagnostic lines (with their output channel) emitted by the
failing branch; the routine progress prints of the success path are not
modelled.  The `List Nat` component of a main function's result is the list
of pipeline steps whose execution began (prompt built / remote call placed),
in order. -/

/-- An output channel of the process. -/
inductive Chan where
  | stdout : Chan
  | stderr : Chan
deriving DecidableEq

/-- A process exit: the status code and the diagnostic messages printed by
the exiting branch, tagged with their channel. -/
structure ExitInfo where
  code : Nat
  msgs : List (Chan × List Char)
deriving DecidableEq

/-- How a pipeline stage failed: the remote model call raised, or its
response could not be parsed as the expected structured output. -/
inductive StageErrKind where
  | remoteCall : StageErrKind
  | schemaViolation : StageErrKind
deriving DecidableEq

/-- Where a run terminated abnormally. -/
inductive FailPoint where
  | usage : FailPoint
  | credential : FailPoint
  | inputRead : FailPoint
  | stage : Nat → StageErrKind → FailPoint
  | finalReport : FailPoint
deriving DecidableEq

/-- The outcome of reading the input file / stdin. -/
inductive ReadOutcome where
  | content : List Char → ReadOutcome
  | notFound : ReadOutcome
  | readError : List Char → ReadOutcome

/-- `create_client` (identical in `code_reviewer.py`, `support_classifier.py`
and `competitor_analyzer.py`): missing `ANTHROPIC_API_KEY` prints two lines
to stderr and exits 1.  (The second line's quoted sample key is elided.) -/
def create_client (apiKey : Option (List Char)) : Except ExitInfo Unit :=
  match apiKey with
  | none =>
    .error ⟨1, [(Chan.stderr, str "ERROR: ANTHROPIC_API_KEY environment variable not set"),
                (Chan.stderr, str "Set it with: export ANTHROPIC_API_KEY=your-key-here")]⟩
  | some _ => .ok ()

/-- `code_reviewer.read_diff`: returns the text read from the file or stdin,
exiting 1 with a stderr message when the file is missing, the content is
whitespace-only, or reading raises. -/
def read_diff (source : List Char) (outcome : ReadOutcome) : Except ExitInfo (List Char) :=
  match outcome with
  | .content s =>
    if (pyStrip s).isEmpty then
      .error ⟨1, [(Chan.stderr, str "ERROR: Diff content is empty")]⟩
    else .ok s
  | .notFound => .error ⟨1, [(Chan.stderr, str "ERROR: File not found: " ++ source)]⟩
  | .readError m => .error ⟨1, [(Chan.stderr, str "ERROR reading diff: " ++ m)]⟩

/-- `code_reviewer.analyze_diff`, from the remote call's outcome onward: on
success the response text goes through fence extraction and `json.loads`;
a `JSONDecodeError` prints two stderr lines — the second shows the text that
was handed to the parser (`analysis_text` after extraction) — and exits 1.
The parsed value is returned with no schema validation.  A raised remote
call prints one stderr line and exits 1. -/
def analyze_diff (r : Except (List Char) (List Char)) :
    Except (StageErrKind × ExitInfo) JVal :=
  match r with
  | .error e =>
    .error (.remoteCall, ⟨1, [(Chan.stderr, str "ERROR analyzing diff: " ++ e)]⟩)
  | .ok responseText =>
    let analysis_text := extractStructured responseText
    match jsonParse analysis_text with
    | some v => .ok v
    | none =>
      .error (.schemaViolation,
        ⟨1, [(Chan.stderr, str "ERROR: Invalid JSON response: "),
             (Chan.stderr, str "Raw response: " ++ analysis_text)]⟩)

/-- `code_reviewer.review_bugs`: a free-text stage; the response is recorded
verbatim, a raised remote call prints to stderr and exits 1. -/
def review_bugs (r : Except (List Char) (List Char)) :
    Except (StageErrKind × ExitInfo) (List Char) :=
  match r with
  | .ok t => .ok t
  | .error e =>
    .error (.remoteCall, ⟨1, [(Chan.stderr, str "ERROR reviewing bugs: " ++ e)]⟩)

/-- `code_reviewer.review_security` (free-text stage). -/
def review_security (r : Except (List Char) (List Char)) :
    Except (StageErrKind × ExitInfo) (List Char) :=
  match r with
  | .ok t => .ok t
  | .error e =>
    .error (.remoteCall, ⟨1, [(Chan.stderr, str "ERROR reviewing security: " ++ e)]⟩)

/-- `code_reviewer.review_performance` (free-text stage). -/
def review_performance (r : Except (List Char) (List Char)) :
    Except (StageErrKind × ExitInfo) (List Char) :=
  match r with
  | .ok t => .ok t
  | .error e =>
    .error (.remoteCall, ⟨1, [(Chan.stderr, str "ERROR reviewing performance: " ++ e)]⟩)

/-- `code_reviewer.generate_summary` (free-text stage). -/
def generate_summary (r : Except (List Char) (List Char)) :
    Except (StageErrKind × ExitInfo) (List Char) :=
  match r with
  | .ok t => .ok t
  | .error e =>
    .error (.remoteCall, ⟨1, [(Chan.stderr, str "ERROR generating summary: " ++ e)]⟩)

/-- The last prints of `code_reviewer.main`:
`analysis` is subscripted with `risk_level` and `complexity` and the values
upper-cased.  A missing key raises an uncaught `KeyError` (a non-string
value an `AttributeError`), aborting the interpreter with a traceback on
stderr and exit status 1. -/
def finalStatus (analysis : JVal) : Except ExitInfo (List Char × List Char) :=
  match jLookup analysis (str "risk_level") with
  | some (.jstr r) =>
    match jLookup analysis (str "complexity") with
    | some (.jstr c) => .ok (r.map Char.toUpper, c.map Char.toUpper)
    | some _ => .error ⟨1, [(Chan.stderr, str "AttributeError: upper")]⟩
    | none => .error ⟨1, [(Chan.stderr, str "KeyError: complexity")]⟩
  | some _ => .error ⟨1, [(Chan.stderr, str "AttributeError: upper")]⟩
  | none => .error ⟨1, [(Chan.stderr, str "KeyError: risk_level")]⟩

/-- The environment a `code_reviewer.py` run interacts with: the argument
vector, the credential, the input-read outcome, and the outcomes of the five
remote model calls (in pipeline order). -/
structure CREnv where
  argv : List (List Char)
  apiKey : Option (List Char)
  readOutcome : ReadOutcome
  r1 : Except (List Char) (List Char)
  r2 : Except (List Char) (List Char)
  r3 : Except (List Char) (List Char)
  r4 : Except (List Char) (List Char)
  r5 : Except (List Char) (List Char)

/-- The values a successful `code_reviewer.py` run records. -/
structure CRFinal where
  analysis : JVal
  bugs : List Char
  security : List Char
  performance : List Char
  summary : List Char
  risk : List Char
  complexity : List Char

/-- The six usage lines `code_reviewer.main` prints (to stdout) when the
diff argument is missing. -/
def crUsageMsgs : List (Chan × List Char) :=
  [(Chan.stdout, str "Usage: python code_reviewer.py <diff_file>"),
   (Chan.stdout, str "       python code_reviewer.py -    (read from stdin)"),
   (Chan.stdout, str "\nExamples:"),
   (Chan.stdout, str "  git diff | python code_reviewer.py -"),
   (Chan.stdout, str "  git diff main...feature | python code_reviewer.py -"),
   (Chan.stdout, str "  python code_reviewer.py changes.diff")]

/-- `code_reviewer.main`: argument check, client creation, diff read, then
the five review stages strictly in order; each failing step exits the
process.  The first component lists the pipeline steps whose execution
began. -/
def code_reviewer_main (env : CREnv) :
    List Nat × Except (FailPoint × ExitInfo) CRFinal :=
  if env.argv.length < 2 then ([], .error (.usage, ⟨1, crUsageMsgs⟩))
  else
    match create_client env.apiKey with
    | .error e => ([], .error (.credential, e))
    | .ok _ =>
      match read_diff (env.argv.getD 1 []) env.readOutcome with
      | .error e => ([], .error (.inputRead, e))
      | .ok _diff =>
        match analyze_diff env.r1 with
        | .error (k, e) => ([1], .error (.stage 1 k, e))
        | .ok analysis =>
          match review_bugs env.r2 with
          | .error (k, e) => ([1, 2], .error (.stage 2 k, e))
          | .ok bugs =>
            match review_security env.r3 with
            | .error (k, e) => ([1, 2, 3], .error (.stage 3 k, e))
            | .ok security =>
              match review_performance env.r4 with
              | .error (k, e) => ([1, 2, 3, 4], .error (.stage 4 k, e))
              | .ok performance =>
                match generate_summary env.r5 with
                | .error (k, e) => ([1, 2, 3, 4, 5], .error (.stage 5 k, e))
                | .ok summary =>
                  match finalStatus analysis with
                  | .error e => ([1, 2, 3, 4, 5], .error (.finalReport, e))
                  | .ok (risk, comp) =>
                    ([1, 2, 3, 4, 5],
                     .ok ⟨analysis, bugs, security, performance, summary, risk, comp⟩)

/-- The process exit status of a `code_reviewer.py` run: 0 when `main`
returns normally, otherwise the status passed to `sys.exit`. -/
def crExitCode (env : CREnv) : Nat :=
  match (code_reviewer_main env).2 with
  | .ok _ => 0
  | .error (_, e) => e.code

/-! ### competitor_analyzer.py -/

/-- The whitespace clean-up in `competitor_analyzer.fetch_webpage`:

    lines = [line.strip() for line in text.split(chr(10)) if line.strip()]
    clean_text = chr(10).join(lines)

applied to the text extracted from the fetched HTML. -/
def cleanLines (text : List Char) : List Char :=
  List.intercalate (str "\n")
    (((splitNl text).map pyStrip).filter (fun l => !l.isEmpty))

/-- The marker appended when a fetched page is cut at 10000 characters. -/
def truncMarker : List Char := str "\n\n[Content truncated...]"

/-- `competitor_analyzer.fetch_webpage`, from the HTTP outcome onward
(`outcome` is the text extracted from the response by BeautifulSoup, or the
`requests` exception message).  On success the cleaned text is cut at 10000
characters; on a `RequestException` the function prints two stderr
diagnostics ("ERROR fetching webpage" and "Continuing with limited
analysis...") and, instead of failing, RETURNS the placeholder string
below, which the caller feeds to the next stage. -/
def fetch_webpage (url : List Char) (outcome : Except (List Char) (List Char)) :
    List Char :=
  match outcome with
  | .ok text =>
    let clean_text := cleanLines text
    if clean_text.length > 10000 then clean_text.take 10000 ++ truncMarker
    else clean_text
  | .error e => str "Failed to fetch content from " ++ url ++ str ". Error: " ++ e

/-- `competitor_analyzer.extract_key_info`, from the remote call's outcome
onward: same structure as `analyze_diff` (fence extraction, `json.loads`,
no schema validation, exit 1 with two stderr lines on a parse failure). -/
def extract_key_info (r : Except (List Char) (List Char)) :
    Except (StageErrKind × ExitInfo) JVal :=
  match r with
  | .error e =>
    .error (.remoteCall, ⟨1, [(Chan.stderr, str "ERROR extracting information: " ++ e)]⟩)
  | .ok responseText =>
    let info_text := extractStructured responseText
    match jsonParse info_text with
    | some v => .ok v
    | none =>
      .error (.schemaViolation,
        ⟨1, [(Chan.stderr, str "ERROR: Invalid JSON response: "),
             (Chan.stderr, str "Raw response: " ++ info_text)]⟩)

/-- `competitor_analyzer.compare_products`: a streamed stage; the fragments
delivered by the call are accumulated with `comparison += text` and the
final buffer returned. -/
def compare_products (r : Except (List Char) (List (List Char))) :
    Except (StageErrKind × ExitInfo) (List Char) :=
  match r with
  | .ok frags => .ok (frags.foldl (fun comparison text => comparison ++ text) [])
  | .error e =>
    .error (.remoteCall, ⟨1, [(Chan.stderr, str "ERROR comparing products: " ++ e)]⟩)

/-- `competitor_analyzer.generate_swot` (streamed stage). -/
def generate_swot (r : Except (List Char) (List (List Char))) :
    Except (StageErrKind × ExitInfo) (List Char) :=
  match r with
  | .ok frags => .ok (frags.foldl (fun swot text => swot ++ text) [])
  | .error e =>
    .error (.remoteCall, ⟨1, [(Chan.stderr, str "ERROR generating SWOT: " ++ e)]⟩)

/-- `competitor_analyzer.generate_positioning_strategy` (free-text stage). -/
def generate_positioning_strategy (r : Except (List Char) (List Char)) :
    Except (StageErrKind × ExitInfo) (List Char) :=
  match r with
  | .ok t => .ok t
  | .error e =>
    .error (.remoteCall, ⟨1, [(Chan.stderr, str "ERROR generating strategy: " ++ e)]⟩)

/-- The environment a `competitor_analyzer.py` run interacts with.  Steps 3
and 4 stream, so their outcomes are fragment sequences. -/
structure CAEnv where
  argv : List (List Char)
  apiKey : Option (List Char)
  fetchOutcome : Except (List Char) (List Char)
  r2 : Except (List Char) (List Char)
  r3 : Except (List Char) (List (List Char))
  r4 : Except (List Char) (List (List Char))
  r5 : Except (List Char) (List Char)

/-- The values a successful `competitor_analyzer.py` run records; `content`
is the text `fetch_webpage` returned and `main` forwarded to
`extract_key_info`. -/
structure CAFinal where
  content : List Char
  info : JVal
  comparison : List Char
  swot : List Char
  strategy : List Char

/-- The usage lines `competitor_analyzer.main` prints (to stdout) when
arguments are missing. -/
def caUsageMsgs : List (Chan × List Char) :=
  [(Chan.stdout, str "Usage: python competitor_analyzer.py <competitor_url> <your_product_name>"),
   (Chan.stdout, str "\nExample:"),
   (Chan.stdout, str "  python competitor_analyzer.py \"https://competitor.com\" \"LaunchFast\"")]

/-- `competitor_analyzer.main`: argument check, client creation, then the
five steps in order.  Step 1 (`fetch_webpage`) cannot fail — its error
branch returns placeholder text — so execution always reaches step 2. -/
def competitor_main (env : CAEnv) :
    List Nat × Except (FailPoint × ExitInfo) CAFinal :=
  if env.argv.length < 3 then ([], .error (.usage, ⟨1, caUsageMsgs⟩))
  else
    match create_client env.apiKey with
    | .error e => ([], .error (.credential, e))
    | .ok _ =>
      let content := fetch_webpage (env.argv.getD 1 []) env.fetchOutcome
      match extract_key_info env.r2 with
      | .error (k, e) => ([1, 2], .error (.stage 2 k, e))
      | .ok info =>
        match compare_products env.r3 with
        | .error (k, e) => ([1, 2, 3], .error (.stage 3 k, e))
        | .ok comparison =>
          match generate_swot env.r4 with
          | .error (k, e) => ([1, 2, 3, 4], .error (.stage 4 k, e))
          | .ok swot =>
            match generate_positioning_strategy env.r5 with
            | .error (k, e) => ([1, 2, 3, 4, 5], .error (.stage 5 k, e))
            | .ok strategy =>
              ([1, 2, 3, 4, 5], .ok ⟨content, info, comparison, swot, strategy⟩)

/-! ### Streaming aggregation (support_classifier.py, content_pipeline.py) -/

/-- The fragment loop of `support_classifier.draft_response`:

    response = ""
    for text in stream.text_stream:
        response += text

given the ordered fragments the streaming call delivers. -/
def draft_response (frags : List (List Char)) : List Char :=
  frags.foldl (fun response text => response ++ text) []

/-- The identical fragment loop of `content_pipeline.write_draft`
(`draft += text`). -/
def write_draft (frags : List (List Char)) : List Char :=
  frags.foldl (fun draft text => draft ++ text) []

/-! ## Lemmas: the Python substring primitives -/

theorem takeBefore_prefix_input (sep : List Char) : ∀ s : List Char, takeBefore sep s <+: s := by
  intro s
  induction s with
  | nil => simp [takeBefore]
  | cons c cs ih =>
    by_cases h : sep.isPrefixOf (c :: cs) = true
    · simp [takeBefore, h]
    · simpa [takeBefore, h, List.cons_prefix_cons] using ih

theorem hasSub_infix_iff (sep : List Char) : ∀ s : List Char, hasSub sep s = true ↔ sep <:+: s := by
  intro s
  induction s with
  | nil => simp [hasSub, List.isEmpty_iff]
  | cons c cs ih =>
    simp [hasSub, List.infix_cons_iff, List.isPrefixOf_iff_prefix, ih]

theorem hasSub_eq_false_of_infix {sep s t : List Char} (hst : s <:+: t)
    (ht : hasSub sep t = false) : hasSub sep s = false := by
  by_contra h
  have hs : hasSub sep s = true := by
    cases hh : hasSub sep s with
    | true => rfl
    | false => exact absurd hh h
  have : hasSub sep t = true :=
    (hasSub_infix_iff sep t).mpr (((hasSub_infix_iff sep s).mp hs).trans hst)
  rw [this] at ht
  simp at ht

theorem hasSub_of_prefix {sep₁ sep₂ s : List Char} (hp : sep₁ <+: sep₂)
    (h : hasSub sep₂ s = true) : hasSub sep₁ s = true :=
  (hasSub_infix_iff sep₁ s).mpr (hp.isInfix.trans ((hasSub_infix_iff sep₂ s).mp h))

theorem hasSub_fence_of_fenceJson {s : List Char} (h : hasSub fenceJson s = true) :
    hasSub fence s = true :=
  hasSub_of_prefix (by decide) h

theorem hasSub_takeBefore_eq_false (sep : List Char) (hsep : sep ≠ []) :
    ∀ s : List Char, hasSub sep (takeBefore sep s) = false := by
  intro s
  induction s with
  | nil =>
    rcases sep with _ | ⟨a, tl⟩
    · exact absurd rfl hsep
    · rfl
  | cons c cs ih =>
    by_cases h : sep.isPrefixOf (c :: cs) = true
    · simp only [takeBefore, h, if_true]
      rcases sep with _ | ⟨a, tl⟩
      · exact absurd rfl hsep
      · rfl
    · simp only [takeBefore, h, if_false, Bool.if_false_left, hasSub, ih,
        Bool.or_eq_false_iff, and_true, eq_self_iff_true]
      rcases sep with _ | ⟨a, tl⟩
      · exact absurd rfl hsep
      · cases hpc : List.isPrefixOf (a :: tl) (c :: takeBefore (a :: tl) cs) with
        | false => rfl
        | true =>
          exfalso
          have hpc' := List.isPrefixOf_iff_prefix.mp hpc
          rw [List.cons_prefix_cons] at hpc'
          have htl : tl <+: cs := hpc'.2.trans (takeBefore_prefix_input (a :: tl) cs)
          have : (a :: tl) <+: (c :: cs) := List.cons_prefix_cons.mpr ⟨hpc'.1, htl⟩
          rw [List.isPrefixOf_iff_prefix.mpr this] at h
          exact h rfl

theorem takeBefore_eq_self_of_hasSub_false {sep : List Char} :
    ∀ {s : List Char}, hasSub sep s = false → takeBefore sep s = s := by
  intro s
  induction s with
  | nil => intro _; rfl
  | cons c cs ih =>
    intro h
    simp only [hasSub, Bool.or_eq_false_iff] at h
    simp [takeBefore, h.1, ih h.2]

theorem pyStrip_infix_input (s : List Char) : pyStrip s <:+: s := by
  have h1 : s.dropWhile pySpace <:+ s := List.dropWhile_suffix pySpace
  have h2 : (s.dropWhile pySpace).reverse.dropWhile pySpace <:+
      (s.dropWhile pySpace).reverse := List.dropWhile_suffix pySpace
  have h3 : pyStrip s <+: s.dropWhile pySpace := by
    have h4 := List.reverse_prefix.mpr h2
    simpa [pyStrip] using h4
  exact (h3.isInfix).trans h1.isInfix

theorem isPrefixOf_cons_eq_false {hd : Char} {tl : List Char} {c : Char}
    (hc : c ≠ hd) (s : List Char) : (hd :: tl).isPrefixOf (c :: s) = false := by
  cases hpc : (hd :: tl).isPrefixOf (c :: s) with
  | false => rfl
  | true =>
    exfalso
    have := (List.isPrefixOf_iff_prefix.mp hpc)
    rw [List.cons_prefix_cons] at this
    exact hc this.1.symm

theorem afterFirst_sep_append (hd : Char) (tl r : List Char) :
    afterFirst (hd :: tl) ((hd :: tl) ++ r) = r := by
  have hp : (hd :: tl).isPrefixOf ((hd :: tl) ++ r) = true :=
    List.isPrefixOf_iff_prefix.mpr (List.prefix_append _ _)
  rw [List.cons_append]
  simp only [afterFirst, ← List.cons_append, hp, if_true]
  exact List.drop_left _ _

theorem afterFirst_headFree_append {hd : Char} {tl : List Char} :
    ∀ {pre : List Char}, (∀ c ∈ pre, c ≠ hd) → ∀ v : List Char,
    afterFirst (hd :: tl) (pre ++ v) = afterFirst (hd :: tl) v := by
  intro pre
  induction pre with
  | nil => intro _ v; rfl
  | cons p ps ih =>
    intro h v
    have hp : p ≠ hd := h p (List.mem_cons_self p ps)
    have hps : ∀ c ∈ ps, c ≠ hd := fun c hc => h c (List.mem_cons_of_mem p hc)
    simp only [List.cons_append, afterFirst, isPrefixOf_cons_eq_false hp, if_false]
    exact ih hps v

theorem takeBefore_sep_append (hd : Char) (tl r : List Char) :
    takeBefore (hd :: tl) ((hd :: tl) ++ r) = [] := by
  have hp : (hd :: tl).isPrefixOf ((hd :: tl) ++ r) = true :=
    List.isPrefixOf_iff_prefix.mpr (List.prefix_append _ _)
  rw [List.cons_append]
  simp only [takeBefore, ← List.cons_append, hp, if_true]

theorem takeBefore_headFree_append {hd : Char} {tl : List Char} :
    ∀ {mid : List Char}, (∀ c ∈ mid, c ≠ hd) → ∀ v : List Char,
    takeBefore (hd :: tl) (mid ++ v) = mid ++ takeBefore (hd :: tl) v := by
  intro mid
  induction mid with
  | nil => intro _ v; rfl
  | cons m ms ih =>
    intro h v
    have hm : m ≠ hd := h m (List.mem_cons_self m ms)
    have hms : ∀ c ∈ ms, c ≠ hd := fun c hc => h c (List.mem_cons_of_mem m hc)
    simp [List.cons_append, takeBefore, isPrefixOf_cons_eq_false hm, ih hms v]

theorem hasSub_headFree {hd : Char} {tl : List Char} :
    ∀ {s : List Char}, (∀ c ∈ s, c ≠ hd) → hasSub (hd :: tl) s = false := by
  intro s
  induction s with
  | nil => intro _; rfl
  | cons m ms ih =>
    intro h
    have hm : m ≠ hd := h m (List.mem_cons_self m ms)
    have hms : ∀ c ∈ ms, c ≠ hd := fun c hc => h c (List.mem_cons_of_mem m hc)
    simp only [hasSub, isPrefixOf_cons_eq_false hm, ih hms, Bool.or_self]

theorem hasSub_sep_append (hd : Char) (tl r : List Char) :
    hasSub (hd :: tl) ((hd :: tl) ++ r) = true := by
  have hp : (hd :: tl).isPrefixOf ((hd :: tl) ++ r) = true :=
    List.isPrefixOf_iff_prefix.mpr (List.prefix_append _ _)
  rw [List.cons_append]
  simp only [hasSub, ← List.cons_append, hp, Bool.true_or]

theorem hasSub_append_left {sep : List Char} (pre : List Char) {v : List Char}
    (h : hasSub sep v = true) : hasSub sep (pre ++ v) = true :=
  (hasSub_infix_iff sep (pre ++ v)).mpr
    (((hasSub_infix_iff sep v).mp h).trans (List.suffix_append pre v).isInfix)

theorem fence_cons : fence = btick :: btick :: btick :: [] := by decide

theorem fenceJson_cons :
    fenceJson = btick :: btick :: btick :: 'j' :: 's' :: 'o' :: 'n' :: [] := by decide

theorem fenceJson_split : fenceJson = fence ++ ('j' :: 's' :: 'o' :: 'n' :: []) := by decide

theorem fence_prefix_fenceJson : fence <+: fenceJson := by
  rw [fenceJson_split]
  exact List.prefix_append _ _

theorem isPrefixOf_fenceJson_fence_append (post : List Char) :
    fenceJson.isPrefixOf (fence ++ post) =
      List.isPrefixOf ('j' :: 's' :: 'o' :: 'n' :: []) post := by
  rw [fenceJson_cons, fence_cons]
  simp [List.isPrefixOf]

theorem takeBefore_fence_fenceJson_fence_append (post : List Char)
    (h : ∀ c ∈ post.take 1, c ≠ btick) :
    takeBefore fence (takeBefore fenceJson (fence ++ post)) = [] := by
  by_cases hj : List.isPrefixOf ('j' :: 's' :: 'o' :: 'n' :: []) post = true
  · obtain ⟨rest, hrest⟩ := List.isPrefixOf_iff_prefix.mp hj
    have hx : fence ++ post = fenceJson ++ rest := by
      rw [← hrest, fenceJson_split, List.append_assoc]
    rw [hx, fenceJson_cons, takeBefore_sep_append]
    rfl
  · cases post with
    | nil => decide
    | cons p ps =>
      have hp : p ≠ btick := h p (by simp)
      have hbp : (btick == p) = false := by
        rw [beq_eq_false_iff_ne]
        exact fun hh => hp hh.symm
      have hfp : fence ++ (p :: ps) = btick :: btick :: btick :: p :: ps := by
        rw [fence_cons]
        rfl
      have i1 : fenceJson.isPrefixOf (btick :: btick :: btick :: p :: ps) = false := by
        rw [← hfp, isPrefixOf_fenceJson_fence_append]
        exact (Bool.not_eq_true _).mp hj
      have i2 : fenceJson.isPrefixOf (btick :: btick :: p :: ps) = false := by
        rw [fenceJson_cons]
        simp [List.isPrefixOf, hbp]
      have i3 : fenceJson.isPrefixOf (btick :: p :: ps) = false := by
        rw [fenceJson_cons]
        simp [List.isPrefixOf, hbp]
      have e1 : takeBefore fenceJson (btick :: btick :: btick :: p :: ps)
          = btick :: takeBefore fenceJson (btick :: btick :: p :: ps) := by
        simp [takeBefore, i1]
      have e2 : takeBefore fenceJson (btick :: btick :: p :: ps)
          = btick :: takeBefore fenceJson (btick :: p :: ps) := by
        simp [takeBefore, i2]
      have e3 : takeBefore fenceJson (btick :: p :: ps)
          = btick :: takeBefore fenceJson (p :: ps) := by
        simp [takeBefore, i3]
      have e4 : takeBefore fence
          (btick :: btick :: btick :: takeBefore fenceJson (p :: ps)) = [] := by
        have h5 := takeBefore_sep_append btick (btick :: btick :: [])
          (takeBefore fenceJson (p :: ps))
        rw [fence_cons]
        simpa using h5
      rw [hfp, e1, e2, e3, e4]

theorem extract_no_fence {s : List Char} (h : hasSub fence s = false) :
    extractStructured s = s := by
  have hj : hasSub fenceJson s = false := by
    cases hh : hasSub fenceJson s with
    | false => rfl
    | true => rw [hasSub_fence_of_fenceJson hh] at h; simp at h
  simp [extractStructured, h, hj]

theorem afterFirst_fenceJson_headFree {pre : List Char} (h : ∀ c ∈ pre, c ≠ btick)
    (v : List Char) : afterFirst fenceJson (pre ++ v) = afterFirst fenceJson v := by
  rw [fenceJson_cons]
  exact afterFirst_headFree_append h v

theorem afterFirst_fenceJson_self (v : List Char) :
    afterFirst fenceJson (fenceJson ++ v) = v := by
  rw [fenceJson_cons]
  exact afterFirst_sep_append _ _ _

theorem afterFirst_fence_headFree {pre : List Char} (h : ∀ c ∈ pre, c ≠ btick)
    (v : List Char) : afterFirst fence (pre ++ v) = afterFirst fence v := by
  rw [fence_cons]
  exact afterFirst_headFree_append h v

theorem afterFirst_fence_self (v : List Char) :
    afterFirst fence (fence ++ v) = v := by
  rw [fence_cons]
  exact afterFirst_sep_append _ _ _

theorem takeBefore_fenceJson_headFree {mid : List Char} (h : ∀ c ∈ mid, c ≠ btick)
    (v : List Char) :
    takeBefore fenceJson (mid ++ v) = mid ++ takeBefore fenceJson v := by
  rw [fenceJson_cons]
  exact takeBefore_headFree_append h v

theorem takeBefore_fence_headFree {mid : List Char} (h : ∀ c ∈ mid, c ≠ btick)
    (v : List Char) :
    takeBefore fence (mid ++ v) = mid ++ takeBefore fence v := by
  rw [fence_cons]
  exact takeBefore_headFree_append h v

theorem takeBefore_fence_self (v : List Char) : takeBefore fence (fence ++ v) = [] := by
  rw [fence_cons]
  exact takeBefore_sep_append _ _ _

theorem hasSub_fence_headFree {s : List Char} (h : ∀ c ∈ s, c ≠ btick) :
    hasSub fence s = false := by
  rw [fence_cons]
  exact hasSub_headFree h

theorem extract_json_block (pre mid post : List Char)
    (hpre : ∀ c ∈ pre, c ≠ btick) (hmid : ∀ c ∈ mid, c ≠ btick)
    (hpost : ∀ c ∈ post.take 1, c ≠ btick) :
    extractStructured (pre ++ (fenceJson ++ (mid ++ (fence ++ post)))) = pyStrip mid := by
  have h1 : hasSub fenceJson (pre ++ (fenceJson ++ (mid ++ (fence ++ post)))) = true := by
    apply hasSub_append_left pre
    rw [fenceJson_cons]
    exact hasSub_sep_append _ _ _
  have h2 : afterFirst fenceJson (pre ++ (fenceJson ++ (mid ++ (fence ++ post))))
      = mid ++ (fence ++ post) := by
    rw [afterFirst_fenceJson_headFree hpre, afterFirst_fenceJson_self]
  have h3 : takeBefore fenceJson (mid ++ (fence ++ post))
      = mid ++ takeBefore fenceJson (fence ++ post) :=
    takeBefore_fenceJson_headFree hmid _
  have h4 : takeBefore fence (mid ++ takeBefore fenceJson (fence ++ post))
      = mid ++ takeBefore fence (takeBefore fenceJson (fence ++ post)) :=
    takeBefore_fence_headFree hmid _
  simp only [extractStructured, h1, if_true, h2, h3, h4,
    takeBefore_fence_fenceJson_fence_append post hpost, List.append_nil]

theorem extract_plain_block (pre mid post : List Char)
    (hpre : ∀ c ∈ pre, c ≠ btick) (hmid : ∀ c ∈ mid, c ≠ btick)
    (hnj : hasSub fenceJson (pre ++ (fence ++ (mid ++ (fence ++ post)))) = false) :
    extractStructured (pre ++ (fence ++ (mid ++ (fence ++ post)))) = pyStrip mid := by
  have h1 : hasSub fence (pre ++ (fence ++ (mid ++ (fence ++ post)))) = true := by
    apply hasSub_append_left pre
    rw [fence_cons]
    exact hasSub_sep_append _ _ _
  have h2 : afterFirst fence (pre ++ (fence ++ (mid ++ (fence ++ post))))
      = mid ++ (fence ++ post) := by
    rw [afterFirst_fence_headFree hpre, afterFirst_fence_self]
  have h3 : takeBefore fence (mid ++ (fence ++ post)) = mid := by
    rw [takeBefore_fence_headFree hmid, takeBefore_fence_self, List.append_nil]
  have h4 : takeBefore fence mid = mid :=
    takeBefore_eq_self_of_hasSub_false (hasSub_fence_headFree hmid)
  simp only [extractStructured, hnj, Bool.false_eq_true, if_false, h1, if_true, h2, h3, h4]

theorem hasSub_fenceJson_eq_false {s : List Char} (h : hasSub fence s = false) :
    hasSub fenceJson s = false := by
  cases hh : hasSub fenceJson s with
  | false => rfl
  | true => rw [hasSub_fence_of_fenceJson hh] at h; simp at h

theorem extract_extract (x : List Char) :
    extractStructured (extractStructured x) = extractStructured x := by
  by_cases h1 : hasSub fenceJson x = true
  · have hval : extractStructured x
        = pyStrip (takeBefore fence (takeBefore fenceJson (afterFirst fenceJson x))) := by
      simp [extractStructured, h1]
    have hw : hasSub fence
        (takeBefore fence (takeBefore fenceJson (afterFirst fenceJson x))) = false :=
      hasSub_takeBefore_eq_false fence (by decide) _
    have hs : hasSub fence (pyStrip
        (takeBefore fence (takeBefore fenceJson (afterFirst fenceJson x)))) = false :=
      hasSub_eq_false_of_infix (pyStrip_infix_input _) hw
    rw [hval]
    exact extract_no_fence hs
  · by_cases h2 : hasSub fence x = true
    · have hval : extractStructured x
          = pyStrip (takeBefore fence (takeBefore fence (afterFirst fence x))) := by
        simp [extractStructured, h1, h2]
      have hw : hasSub fence
          (takeBefore fence (takeBefore fence (afterFirst fence x))) = false :=
        hasSub_takeBefore_eq_false fence (by decide) _
      have hs : hasSub fence (pyStrip
          (takeBefore fence (takeBefore fence (afterFirst fence x)))) = false :=
        hasSub_eq_false_of_infix (pyStrip_infix_input _) hw
      rw [hval]
      exact extract_no_fence hs
    · have hval : extractStructured x = x :=
        extract_no_fence ((Bool.not_eq_true _).mp h2)
      rw [hval, hval]

theorem foldl_append_flatten (frags : List (List Char)) :
    ∀ acc : List Char, frags.foldl (fun a b => a ++ b) acc = acc ++ frags.flatten := by
  induction frags with
  | nil => intro acc; simp
  | cons f fs ih => intro acc; simp [List.foldl_cons, ih, List.append_assoc]

theorem splitNl_no_newline : ∀ {l : List Char}, (∀ c ∈ l, c ≠ '\n') → splitNl l = [l] := by
  intro l
  induction l with
  | nil => intro _; rfl
  | cons c cs ih =>
    intro h
    have hc : c ≠ '\n' := h c (List.mem_cons_self c cs)
    have hcs : ∀ x ∈ cs, x ≠ '\n' := fun x hx => h x (List.mem_cons_of_mem c hx)
    simp [splitNl, hc, ih hcs]

theorem pyStrip_no_space {l : List Char} (h : ∀ c ∈ l, pySpace c = false) :
    pyStrip l = l := by
  have h1 : l.dropWhile pySpace = l := by
    cases l with
    | nil => rfl
    | cons c cs => simp [List.dropWhile_cons, h c (List.mem_cons_self c cs)]
  have h2 : l.reverse.dropWhile pySpace = l.reverse := by
    cases hl : l.reverse with
    | nil => rfl
    | cons c cs =>
      have hc : c ∈ l := by
        rw [← List.mem_reverse, hl]
        exact List.mem_cons_self c cs
      simp [List.dropWhile_cons, h c hc]
  simp [pyStrip, h1, h2]

theorem cleanLines_plain {l : List Char} (hn : ∀ c ∈ l, c ≠ '\n')
    (hs : ∀ c ∈ l, pySpace c = false) (hne : l ≠ []) : cleanLines l = l := by
  rw [cleanLines, splitNl_no_newline hn]
  simp [pyStrip_no_space hs, List.intercalate, hne]

/-! ## Claim C1 -/

/-- Claim C1, counterexample.  The claim states that on fence-free input the
extractor returns the entire input trimmed of surrounding whitespace, and
that only the first fenced block is used.  Both parts fail on the code: a
fence-free input is returned UNTRIMMED (the scripts only strip inside the
two fence branches), and a json-tagged block is preferred over an earlier
plain fenced block. -/
theorem spec2proof_C1_counterexample :
    (extractStructured (str "  \x7b\x7d ") = str "  \x7b\x7d "
      ∧ extractStructured (str "  \x7b\x7d ") ≠ pyStrip (str "  \x7b\x7d "))
    ∧ extractStructured (str "```\nA\n``` ```json\nB\n```") = str "B" := by
  refine ⟨⟨by decide, by decide⟩, by decide⟩

/-- Claim C1, amended.  The extractor of `analyze_diff` / `classify_email` /
`extract_key_info` behaves as follows: for a response of the shape
`pre ++ "```json" ++ mid ++ "```" ++ post` (with `pre` and `mid` free of
backticks and `post` not beginning with one), the result is exactly `mid`
trimmed of surrounding whitespace, regardless of `post` — only the first
json-tagged block is used and everything after its closing fence is
discarded; the same holds for a plain fenced block when no json-tagged
marker occurs anywhere; and an input with no fence marker at all is
returned unchanged (NOT trimmed). -/
theorem spec2proof_C1_extraction (pre mid post : List Char)
    (hpre : ∀ c ∈ pre, c ≠ btick) (hmid : ∀ c ∈ mid, c ≠ btick)
    (hpost : ∀ c ∈ post.take 1, c ≠ btick) :
    extractStructured (pre ++ (fenceJson ++ (mid ++ (fence ++ post)))) = pyStrip mid
    ∧ (hasSub fenceJson (pre ++ (fence ++ (mid ++ (fence ++ post)))) = false →
        extractStructured (pre ++ (fence ++ (mid ++ (fence ++ post)))) = pyStrip mid)
    ∧ (∀ x : List Char, hasSub fence x = false → extractStructured x = x) :=
  ⟨extract_json_block pre mid post hpre hmid hpost,
   fun hnj => extract_plain_block pre mid post hpre hmid hnj,
   fun _ hx => extract_no_fence hx⟩

/-- Claim C1, witness: the amended theorem applied to concrete responses,
exercising the json-tagged branch, the plain branch and the no-fence
branch. -/
theorem spec2proof_C1_extraction_witness :
    extractStructured (str "Answer: "
        ++ (fenceJson ++ (str "\n\x7b\"a\": 1\x7d\n" ++ (fence ++ str "Done")))) =
      pyStrip (str "\n\x7b\"a\": 1\x7d\n")
    ∧ extractStructured (str "See "
        ++ (fence ++ (str "code" ++ (fence ++ str " tail")))) = pyStrip (str "code")
    ∧ extractStructured (str "plain text") = str "plain text" := by
  have h := spec2proof_C1_extraction (str "Answer: ") (str "\n\x7b\"a\": 1\x7d\n")
    (str "Done") (by decide) (by decide) (by decide)
  have h2 := spec2proof_C1_extraction (str "See ") (str "code") (str " tail")
    (by decide) (by decide) (by decide)
  exact ⟨h.1, h2.2.1 (by decide), h.2.2 (str "plain text") (by decide)⟩

/-! ## Claim C6 -/

/-- Claim C6, confirmed.  Structured extraction is idempotent: the output of
the extractor is a fixed point of the extractor (in particular
`extract (extract x) = extract x` for every `x` with no fence marker, where
`extract x = x`), because on a fence-free input the extractor is the
identity and extracted fenced content never contains a closing fence
marker. -/
theorem spec2proof_C6_extract_idempotent (x : List Char) :
    extractStructured (extractStructured x) = extractStructured x :=
  extract_extract x

/-! ## Claim C9 -/

/-- Claim C9, counterexample.  The claim states that for an input containing
an opening fence marker but no closing one, extraction "returns all text
after the opening marker".  The code additionally TRIMS that text: for
`"```json\nhello\n"` it returns `"hello"`, not the untrimmed remainder
`"\nhello\n"`. -/
theorem spec2proof_C9_counterexample :
    extractStructured (str "```json\nhello\n") = str "hello"
    ∧ afterFirst fenceJson (str "```json\nhello\n") = str "\nhello\n"
    ∧ str "hello" ≠ str "\nhello\n" := by
  refine ⟨by decide, by decide, by decide⟩

/-- Claim C9, amended.  The fence-extraction step is total — every split is
guarded by a containment check, so no out-of-range error is possible (each
branch below is a computed value, never a failure) — and on an input that
contains an opening fence marker with no closing fence marker after it, the
extractor returns all text after the opening marker, trimmed of surrounding
whitespace. -/
theorem spec2proof_C9_unclosed_fence (x : List Char) :
    (hasSub fenceJson x = true → hasSub fence (afterFirst fenceJson x) = false →
      extractStructured x = pyStrip (afterFirst fenceJson x))
    ∧ (hasSub fenceJson x = false → hasSub fence x = true →
        hasSub fence (afterFirst fence x) = false →
        extractStructured x = pyStrip (afterFirst fence x)) := by
  constructor
  · intro h1 h2
    have hjj : hasSub fenceJson (afterFirst fenceJson x) = false :=
      hasSub_fenceJson_eq_false h2
    simp only [extractStructured, h1, if_true,
      takeBefore_eq_self_of_hasSub_false hjj, takeBefore_eq_self_of_hasSub_false h2]
  · intro h1 h2 h3
    simp only [extractStructured, h1, Bool.false_eq_true, if_false, h2, if_true,
      takeBefore_eq_self_of_hasSub_false h3]

/-- Claim C9, witness: the amended theorem applied to concrete inputs with
an unclosed json-tagged marker and an unclosed plain marker. -/
theorem spec2proof_C9_unclosed_fence_witness :
    extractStructured (str "abc```json def") =
      pyStrip (afterFirst fenceJson (str "abc```json def"))
    ∧ extractStructured (str "x``` y") = pyStrip (afterFirst fence (str "x``` y")) :=
  ⟨(spec2proof_C9_unclosed_fence (str "abc```json def")).1 (by decide) (by decide),
   (spec2proof_C9_unclosed_fence (str "x``` y")).2 (by decide) (by decide) (by decide)⟩

/-! ## Claim C4 -/

/-- Claim C4, confirmed.  For every ordered sequence of fragments delivered
by a streaming call, the recorded result of a streamed stage
(`support_classifier.draft_response`, `content_pipeline.write_draft`) is the
left-to-right concatenation of the fragments in arrival order — the final
accumulated buffer, produced only after the fold has consumed the whole
sequence — and for the fragments `["Hel", "lo, ", "world"]` it equals
`"Hello, world"`. -/
theorem spec2proof_C4_streaming :
    (∀ frags : List (List Char),
      draft_response frags = frags.flatten ∧ write_draft frags = frags.flatten)
    ∧ draft_response [str "Hel", str "lo, ", str "world"] = str "Hello, world" := by
  refine ⟨fun frags => ⟨?_, ?_⟩, by decide⟩ <;>
    simp [draft_response, write_draft, foldl_append_flatten]

/-! ## Claim C10 -/

/-- Claim C10, confirmed.  `competitor_analyzer.fetch_webpage` bounds fetched
input before it enters the pipeline: when the cleaned page text exceeds
10000 characters, exactly its first 10000 characters followed by the fixed
marker `"\n\n[Content truncated...]"` are forwarded (so the forwarded text
has length 10000 plus the marker length); cleaned text of at most 10000
characters is forwarded unchanged. -/
theorem spec2proof_C10_truncation (url text : List Char) :
    ((cleanLines text).length > 10000 →
      fetch_webpage url (.ok text) = (cleanLines text).take 10000 ++ truncMarker
      ∧ (fetch_webpage url (.ok text)).length = 10000 + truncMarker.length)
    ∧ ((cleanLines text).length ≤ 10000 →
        fetch_webpage url (.ok text) = cleanLines text) := by
  constructor
  · intro h
    have he : fetch_webpage url (.ok text)
        = (cleanLines text).take 10000 ++ truncMarker := by
      simp [fetch_webpage, h]
    refine ⟨he, ?_⟩
    rw [he]
    simp only [List.length_append, List.length_take]
    omega
  · intro h
    have hng : ¬ (10000 < (cleanLines text).length) := by omega
    simp [fetch_webpage, hng]

/-- Claim C10, witness: a 10001-character page is cut to its first 10000
characters plus the marker; a short page passes through unchanged. -/
theorem spec2proof_C10_truncation_witness :
    fetch_webpage (str "u") (.ok (List.replicate 10001 'a'))
      = List.replicate 10000 'a' ++ truncMarker
    ∧ fetch_webpage (str "u") (.ok (str "short")) = str "short" := by
  have hclean : cleanLines (List.replicate 10001 'a') = List.replicate 10001 'a' :=
    cleanLines_plain
      (fun c hc => by rw [List.eq_of_mem_replicate hc]; decide)
      (fun c hc => by rw [List.eq_of_mem_replicate hc]; decide)
      (by
        intro h
        have hl := congrArg List.length h
        simp only [List.length_replicate, List.length_nil] at hl
        omega)
  constructor
  · have h1 := (spec2proof_C10_truncation (str "u") (List.replicate 10001 'a')).1
      (by rw [hclean, List.length_replicate]; norm_num)
    rw [hclean] at h1
    rw [h1.1, List.take_replicate]
    norm_num
  · have h2 := (spec2proof_C10_truncation (str "u") (str "short")).2 (by decide)
    rw [h2]
    decide

/-! ## Claim C2 -/

/-- Claim C2, counterexample.  A StructuredRecord response that is valid
JSON but omits the required field `complexity` (the claim's own example)
does NOT yield a SchemaViolation: `analyze_diff` succeeds and records the
partially-populated record as the stage result. -/
theorem spec2proof_C2_counterexample :
    analyze_diff (.ok (str "\x7b\"risk_level\": \"low\"\x7d"))
      = .ok (JVal.jobj [(str "risk_level", JVal.jstr (str "low"))])
    ∧ jLookup (JVal.jobj [(str "risk_level", JVal.jstr (str "low"))])
        (str "complexity") = none :=
  ⟨rfl, rfl⟩

/-- Claim C2, amended.  `analyze_diff` performs no schema validation: every
response whose extracted text parses as JSON is recorded as the stage
result, required fields present or not; only a JSON parse failure is a
stage failure.  A record missing `complexity` therefore IS recorded, and
the omission only surfaces at the end of `main`, where the final report
subscripts the record and aborts (exit status 1). -/
theorem spec2proof_C2_no_schema_validation (resp : List Char) :
    (∀ v, jsonParse (extractStructured resp) = some v → analyze_diff (.ok resp) = .ok v)
    ∧ (jsonParse (extractStructured resp) = none →
        ∃ e, analyze_diff (.ok resp) = .error (StageErrKind.schemaViolation, e))
    ∧ (∀ v, jLookup v (str "complexity") = none →
        ∃ e, finalStatus v = .error e ∧ e.code = 1) := by
  refine ⟨?_, ?_, ?_⟩
  · intro v hv
    simp [analyze_diff, hv]
  · intro hv
    exact ⟨⟨1, [(Chan.stderr, str "ERROR: Invalid JSON response: "),
                (Chan.stderr, str "Raw response: " ++ extractStructured resp)]⟩,
      by simp [analyze_diff, hv]⟩
  · intro v hc
    cases hr : jLookup v (str "risk_level") with
    | none =>
      exact ⟨⟨1, [(Chan.stderr, str "KeyError: risk_level")]⟩,
        by simp [finalStatus, hr], rfl⟩
    | some w =>
      cases w with
      | jstr r =>
        exact ⟨⟨1, [(Chan.stderr, str "KeyError: complexity")]⟩,
          by simp [finalStatus, hr, hc], rfl⟩
      | jnull =>
        exact ⟨⟨1, [(Chan.stderr, str "AttributeError: upper")]⟩,
          by simp [finalStatus, hr], rfl⟩
      | jbool b =>
        exact ⟨⟨1, [(Chan.stderr, str "AttributeError: upper")]⟩,
          by simp [finalStatus, hr], rfl⟩
      | jnum n =>
        exact ⟨⟨1, [(Chan.stderr, str "AttributeError: upper")]⟩,
          by simp [finalStatus, hr], rfl⟩
      | jarr xs =>
        exact ⟨⟨1, [(Chan.stderr, str "AttributeError: upper")]⟩,
          by simp [finalStatus, hr], rfl⟩
      | jobj fs =>
        exact ⟨⟨1, [(Chan.stderr, str "AttributeError: upper")]⟩,
          by simp [finalStatus, hr], rfl⟩

/-- Claim C2, witness: the amended theorem applied to a concrete record
missing `complexity` (recorded as-is), a concrete unparsable response
(schema-violation exit), and the later final-report failure. -/
theorem spec2proof_C2_no_schema_validation_witness :
    analyze_diff (.ok (str "\x7b\"complexity\": \"low\"\x7d"))
      = .ok (JVal.jobj [(str "complexity", JVal.jstr (str "low"))])
    ∧ (analyze_diff (.ok (str "not json"))).isOk = false
    ∧ (finalStatus (JVal.jobj [(str "risk_level", JVal.jstr (str "low"))])).isOk
        = false := by
  refine ⟨(spec2proof_C2_no_schema_validation (str "\x7b\"complexity\": \"low\"\x7d")).1
    _ rfl, ?_, ?_⟩
  · obtain ⟨e, he⟩ := (spec2proof_C2_no_schema_validation (str "not json")).2.1 rfl
    rw [he]
    rfl
  · obtain ⟨e, he, _⟩ := (spec2proof_C2_no_schema_validation (str "not json")).2.2
      (JVal.jobj [(str "risk_level", JVal.jstr (str "low"))]) rfl
    rw [he]
    rfl

/-! ## Claim C8 -/

/-- Claim C8, counterexample.  The claim states that a schema-violation
error surfaces the raw offending response text AS RECEIVED.  When the
response is fenced, the code surfaces only the extracted fenced content:
for the response `"```json\nnot json\n```"` the error shows
`"Raw response: not json"`, and the response as received occurs in no
surfaced message. -/
theorem spec2proof_C8_counterexample :
    analyze_diff (.ok (str "```json\nnot json\n```"))
      = .error (StageErrKind.schemaViolation,
          ⟨1, [(Chan.stderr, str "ERROR: Invalid JSON response: "),
               (Chan.stderr, str "Raw response: not json")]⟩)
    ∧ hasSub (str "```json\nnot json\n```") (str "Raw response: not json") = false
    ∧ str "not json" ≠ str "```json\nnot json\n```" := by
  refine ⟨rfl, by decide, by decide⟩

/-- Claim C8, amended.  On a JSON parse failure the surfaced error includes
the offending text that was handed to the parser — the response AFTER fence
extraction (both in `analyze_diff` and in `extract_key_info`) — and that
text equals the response as received exactly when the response contains no
fence marker. -/
theorem spec2proof_C8_error_shows_extracted (resp : List Char)
    (h : jsonParse (extractStructured resp) = none) :
    analyze_diff (.ok resp)
      = .error (StageErrKind.schemaViolation,
          ⟨1, [(Chan.stderr, str "ERROR: Invalid JSON response: "),
               (Chan.stderr, str "Raw response: " ++ extractStructured resp)]⟩)
    ∧ extract_key_info (.ok resp)
      = .error (StageErrKind.schemaViolation,
          ⟨1, [(Chan.stderr, str "ERROR: Invalid JSON response: "),
               (Chan.stderr, str "Raw response: " ++ extractStructured resp)]⟩)
    ∧ (hasSub fence resp = false → extractStructured resp = resp) := by
  refine ⟨by simp [analyze_diff, h], by simp [extract_key_info, h],
    fun hf => extract_no_fence hf⟩

/-- Claim C8, witness: the amended theorem applied to a concrete fence-free
unparsable response, whose surfaced text is the response itself. -/
theorem spec2proof_C8_error_shows_extracted_witness :
    analyze_diff (.ok (str "nope"))
      = .error (StageErrKind.schemaViolation,
          ⟨1, [(Chan.stderr, str "ERROR: Invalid JSON response: "),
               (Chan.stderr, str "Raw response: " ++ extractStructured (str "nope"))]⟩)
    ∧ extractStructured (str "nope") = str "nope" :=
  ⟨(spec2proof_C8_error_shows_extracted (str "nope") rfl).1,
   (spec2proof_C8_error_shows_extracted (str "nope") rfl).2.2 (by decide)⟩

/-! ## Claim C3 -/

/-- Claim C3, confirmed.  For every `code_reviewer.py` run and every stage
index N: when the run terminates with `FailedAt(stage N, kind)` — a
remote-call error or a structured-output parse error at stage N — stage N is
the last pipeline step whose execution began; no later stage ever starts,
so no prompt is constructed and no remote call is placed for any stage
after N. -/
theorem spec2proof_C3_fail_fast (env : CREnv) (tr : List Nat) (n : Nat)
    (k : StageErrKind) (e : ExitInfo)
    (h : code_reviewer_main env = (tr, .error (.stage n k, e))) :
    n ∈ tr ∧ ∀ j ∈ tr, j ≤ n := by
  unfold code_reviewer_main at h
  repeat' split at h
  all_goals simp_all
  all_goals (obtain ⟨htr, ⟨hn, hk⟩, he⟩ := h; subst htr; subst hn; decide)

/-- Claim C3, witness: a run whose stage-2 remote call fails terminates as
`FailedAt(stage 2, remoteCall)` having started exactly stages 1 and 2. -/
theorem spec2proof_C3_fail_fast_witness :
    (2 : Nat) ∈ [1, 2] ∧ (1 : Nat) ≤ 2 ∧ (2 : Nat) ≤ 2 :=
  have h := spec2proof_C3_fail_fast
    ⟨[str "code_reviewer.py", str "x.diff"], some (str "key"), .content (str "diff"),
      .ok (str "\x7b\x7d"), .error (str "boom"), .ok [], .ok [], .ok []⟩
    [1, 2] 2 .remoteCall
    ⟨1, [(Chan.stderr, str "ERROR reviewing bugs: " ++ str "boom")]⟩
    rfl
  ⟨h.1, h.2 1 (by decide), h.2 2 (by decide)⟩

/-! ## Claim C7 -/

theorem create_client_error {k : Option (List Char)} {e : ExitInfo}
    (h : create_client k = .error e) :
    e.code = 1 ∧ e.msgs ≠ [] ∧ ∀ m ∈ e.msgs, m.1 = Chan.stderr := by
  cases k with
  | none =>
    simp only [create_client] at h
    injection h with he
    subst he
    exact ⟨rfl, by simp, by simp⟩
  | some a => simp [create_client] at h

theorem read_diff_error {src : List Char} {o : ReadOutcome} {e : ExitInfo}
    (h : read_diff src o = .error e) :
    e.code = 1 ∧ e.msgs ≠ [] ∧ ∀ m ∈ e.msgs, m.1 = Chan.stderr := by
  cases o with
  | content s =>
    simp only [read_diff] at h
    split at h
    · injection h with he
      subst he
      exact ⟨rfl, by simp, by simp⟩
    · simp at h
  | notFound =>
    injection h with he
    subst he
    exact ⟨rfl, by simp, by simp⟩
  | readError m =>
    injection h with he
    subst he
    exact ⟨rfl, by simp, by simp⟩

theorem analyze_diff_error {r : Except (List Char) (List Char)}
    {k : StageErrKind} {e : ExitInfo} (h : analyze_diff r = .error (k, e)) :
    e.code = 1 ∧ e.msgs ≠ [] ∧ ∀ m ∈ e.msgs, m.1 = Chan.stderr := by
  cases r with
  | error msg =>
    simp only [analyze_diff] at h
    injection h with h1
    rw [Prod.mk.injEq] at h1
    obtain ⟨_, he⟩ := h1
    subst he
    exact ⟨rfl, by simp, by simp⟩
  | ok t =>
    simp only [analyze_diff] at h
    split at h
    · simp at h
    · injection h with h1
      rw [Prod.mk.injEq] at h1
      obtain ⟨_, he⟩ := h1
      subst he
      exact ⟨rfl, by simp, by simp⟩

theorem review_bugs_error {r : Except (List Char) (List Char)}
    {k : StageErrKind} {e : ExitInfo} (h : review_bugs r = .error (k, e)) :
    e.code = 1 ∧ e.msgs ≠ [] ∧ ∀ m ∈ e.msgs, m.1 = Chan.stderr := by
  cases r with
  | ok t => simp [review_bugs] at h
  | error msg =>
    simp only [review_bugs] at h
    injection h with h1
    rw [Prod.mk.injEq] at h1
    obtain ⟨_, he⟩ := h1
    subst he
    exact ⟨rfl, by simp, by simp⟩

theorem review_security_error {r : Except (List Char) (List Char)}
    {k : StageErrKind} {e : ExitInfo} (h : review_security r = .error (k, e)) :
    e.code = 1 ∧ e.msgs ≠ [] ∧ ∀ m ∈ e.msgs, m.1 = Chan.stderr := by
  cases r with
  | ok t => simp [review_security] at h
  | error msg =>
    simp only [review_security] at h
    injection h with h1
    rw [Prod.mk.injEq] at h1
    obtain ⟨_, he⟩ := h1
    subst he
    exact ⟨rfl, by simp, by simp⟩

theorem review_performance_error {r : Except (List Char) (List Char)}
    {k : StageErrKind} {e : ExitInfo} (h : review_performance r = .error (k, e)) :
    e.code = 1 ∧ e.msgs ≠ [] ∧ ∀ m ∈ e.msgs, m.1 = Chan.stderr := by
  cases r with
  | ok t => simp [review_performance] at h
  | error msg =>
    simp only [review_performance] at h
    injection h with h1
    rw [Prod.mk.injEq] at h1
    obtain ⟨_, he⟩ := h1
    subst he
    exact ⟨rfl, by simp, by simp⟩

theorem generate_summary_error {r : Except (List Char) (List Char)}
    {k : StageErrKind} {e : ExitInfo} (h : generate_summary r = .error (k, e)) :
    e.code = 1 ∧ e.msgs ≠ [] ∧ ∀ m ∈ e.msgs, m.1 = Chan.stderr := by
  cases r with
  | ok t => simp [generate_summary] at h
  | error msg =>
    simp only [generate_summary] at h
    injection h with h1
    rw [Prod.mk.injEq] at h1
    obtain ⟨_, he⟩ := h1
    subst he
    exact ⟨rfl, by simp, by simp⟩

theorem finalStatus_error {v : JVal} {e : ExitInfo}
    (h : finalStatus v = .error e) :
    e.code = 1 ∧ e.msgs ≠ [] ∧ ∀ m ∈ e.msgs, m.1 = Chan.stderr := by
  unfold finalStatus at h
  repeat' split at h
  all_goals first
    | (injection h with he; subst he; exact ⟨rfl, by simp, by simp⟩)
    | injection h

theorem cr_main_error_shape (env : CREnv) (tr : List Nat) (p : FailPoint)
    (e : ExitInfo) (h : code_reviewer_main env = (tr, .error (p, e))) :
    e.code = 1 ∧ e.msgs ≠ [] ∧
      ((p = FailPoint.usage ∧ ∀ m ∈ e.msgs, m.1 = Chan.stdout)
        ∨ (p ≠ FailPoint.usage ∧ ∀ m ∈ e.msgs, m.1 = Chan.stderr)) := by
  unfold code_reviewer_main at h
  by_cases h0 : env.argv.length < 2
  · rw [if_pos h0] at h
    simp only [Prod.mk.injEq, Except.error.injEq] at h
    obtain ⟨htr, hp, he⟩ := h
    subst hp
    subst he
    exact ⟨rfl, by decide, Or.inl ⟨rfl, by decide⟩⟩
  · rw [if_neg h0] at h
    cases hc : create_client env.apiKey with
    | error e1 =>
      simp only [hc, Prod.mk.injEq, Except.error.injEq] at h
      obtain ⟨htr, hp, he⟩ := h
      subst hp
      subst he
      have hcc := create_client_error hc
      exact ⟨hcc.1, hcc.2.1, Or.inr ⟨by simp, hcc.2.2⟩⟩
    | ok u =>
      simp only [hc] at h
      cases hrd : read_diff (env.argv.getD 1 []) env.readOutcome with
      | error e1 =>
        simp only [hrd, Prod.mk.injEq, Except.error.injEq] at h
        obtain ⟨htr, hp, he⟩ := h
        subst hp
        subst he
        have hrr := read_diff_error hrd
        exact ⟨hrr.1, hrr.2.1, Or.inr ⟨by simp, hrr.2.2⟩⟩
      | ok diff =>
        simp only [hrd] at h
        cases ha : analyze_diff env.r1 with
        | error pe =>
          obtain ⟨k1, e1⟩ := pe
          simp only [ha, Prod.mk.injEq, Except.error.injEq] at h
          obtain ⟨htr, hp, he⟩ := h
          subst hp
          subst he
          have hx := analyze_diff_error ha
          exact ⟨hx.1, hx.2.1, Or.inr ⟨by simp, hx.2.2⟩⟩
        | ok analysis =>
          simp only [ha] at h
          cases hb : review_bugs env.r2 with
          | error pe =>
            obtain ⟨k1, e1⟩ := pe
            simp only [hb, Prod.mk.injEq, Except.error.injEq] at h
            obtain ⟨htr, hp, he⟩ := h
            subst hp
            subst he
            have hx := review_bugs_error hb
            exact ⟨hx.1, hx.2.1, Or.inr ⟨by simp, hx.2.2⟩⟩
          | ok bugs =>
            simp only [hb] at h
            cases hs : review_security env.r3 with
            | error pe =>
              obtain ⟨k1, e1⟩ := pe
              simp only [hs, Prod.mk.injEq, Except.error.injEq] at h
              obtain ⟨htr, hp, he⟩ := h
              subst hp
              subst he
              have hx := review_security_error hs
              exact ⟨hx.1, hx.2.1, Or.inr ⟨by simp, hx.2.2⟩⟩
            | ok security =>
              simp only [hs] at h
              cases hq : review_performance env.r4 with
              | error pe =>
                obtain ⟨k1, e1⟩ := pe
                simp only [hq, Prod.mk.injEq, Except.error.injEq] at h
                obtain ⟨htr, hp, he⟩ := h
                subst hp
                subst he
                have hx := review_performance_error hq
                exact ⟨hx.1, hx.2.1, Or.inr ⟨by simp, hx.2.2⟩⟩
              | ok performance =>
                simp only [hq] at h
                cases hg : generate_summary env.r5 with
                | error pe =>
                  obtain ⟨k1, e1⟩ := pe
                  simp only [hg, Prod.mk.injEq, Except.error.injEq] at h
                  obtain ⟨htr, hp, he⟩ := h
                  subst hp
                  subst he
                  have hx := generate_summary_error hg
                  exact ⟨hx.1, hx.2.1, Or.inr ⟨by simp, hx.2.2⟩⟩
                | ok summary =>
                  simp only [hg] at h
                  cases hf : finalStatus analysis with
                  | error e1 =>
                    simp only [hf, Prod.mk.injEq, Except.error.injEq] at h
                    obtain ⟨htr, hp, he⟩ := h
                    subst hp
                    subst he
                    have hx := finalStatus_error hf
                    exact ⟨hx.1, hx.2.1, Or.inr ⟨by simp, hx.2.2⟩⟩
                  | ok rc =>
                    obtain ⟨risk, comp⟩ := rc
                    simp only [hf] at h
                    simp at h

/-- Claim C7, counterexample.  The claim states that in every failure case a
descriptive message is written to the error stream before exit.  For
missing required command-line input, `code_reviewer.main` prints its usage
text to STANDARD OUTPUT and exits 1: the run below fails with six messages,
none of which goes to the error stream. -/
theorem spec2proof_C7_counterexample :
    code_reviewer_main
        ⟨[str "code_reviewer.py"], none, .notFound, .error [], .error [],
          .error [], .error [], .error []⟩
      = ([], .error (.usage, ⟨1, crUsageMsgs⟩))
    ∧ crUsageMsgs ≠ []
    ∧ crUsageMsgs.map Prod.fst = List.replicate 6 Chan.stdout := by
  refine ⟨rfl, by decide, by decide⟩

/-- Claim C7, amended.  A `code_reviewer.py` run exits 0 exactly when the
whole pipeline succeeds; every failure — missing command-line input,
missing credential, input-acquisition failure, any stage failure, failing
final report — exits 1 after emitting at least one descriptive message.
The messages go to the error stream in every case EXCEPT missing
command-line input, whose usage text goes to standard output. -/
theorem spec2proof_C7_exit_codes (env : CREnv) :
    (crExitCode env = 0 ↔ ∃ f, (code_reviewer_main env).2 = .ok f)
    ∧ (∀ tr p e, code_reviewer_main env = (tr, .error (p, e)) →
        e.code = 1 ∧ e.msgs ≠ [] ∧
          ((p = FailPoint.usage ∧ ∀ m ∈ e.msgs, m.1 = Chan.stdout)
            ∨ (p ≠ FailPoint.usage ∧ ∀ m ∈ e.msgs, m.1 = Chan.stderr))) := by
  constructor
  · unfold crExitCode
    cases hm : (code_reviewer_main env).2 with
    | ok f => simp
    | error pe =>
      obtain ⟨p, e⟩ := pe
      have hfull : code_reviewer_main env = ((code_reviewer_main env).1, .error (p, e)) := by
        rw [← hm]
      have hx := cr_main_error_shape env _ p e hfull
      simp [hx.1]
  · intro tr p e h
    exact cr_main_error_shape env tr p e h

/-- Claim C7, witness: the amended theorem applied to a run with the
credential unset — the run fails with exit status 1 and stderr-only
messages. -/
theorem spec2proof_C7_exit_codes_witness :
    (⟨1, [(Chan.stderr, str "ERROR: ANTHROPIC_API_KEY environment variable not set"),
          (Chan.stderr, str "Set it with: export ANTHROPIC_API_KEY=your-key-here")]⟩
        : ExitInfo).code = 1
    ∧ (⟨1, [(Chan.stderr, str "ERROR: ANTHROPIC_API_KEY environment variable not set"),
            (Chan.stderr, str "Set it with: export ANTHROPIC_API_KEY=your-key-here")]⟩
        : ExitInfo).msgs ≠ [] :=
  have h := (spec2proof_C7_exit_codes
      ⟨[str "code_reviewer.py", str "x.diff"], none, .content (str "d"),
        .ok [], .ok [], .ok [], .ok [], .ok []⟩).2
    [] FailPoint.credential _ rfl
  ⟨h.1, h.2.1⟩

/-! ## Claim C5 -/

/-- Claim C5, counterexample.  The claim states that every input-acquisition
failure is surfaced and terminates the run, and that the core never
substitutes placeholder text for a failed fetch and continues.  In
`competitor_analyzer.py` a failed webpage fetch does exactly that: the run
below has a failing fetch, yet it proceeds through all five steps and
SUCCEEDS, with the placeholder text recorded as the content forwarded to
the extraction stage. -/
theorem spec2proof_C5_counterexample :
    competitor_main
        ⟨[str "competitor_analyzer.py", str "https://x.example", str "Prod"],
          some (str "key"), .error (str "boom"), .ok (str "\x7b\x7d"),
          .ok [], .ok [], .ok (str "strategy")⟩
      = ([1, 2, 3, 4, 5], .ok
          ⟨str "Failed to fetch content from https://x.example. Error: boom",
            JVal.jobj [], [], [], str "strategy"⟩)
    ∧ str "Failed to fetch content from https://x.example. Error: boom" ≠ [] := by
  refine ⟨rfl, by decide⟩

/-- Claim C5, amended.  File/stdin acquisition (`read_diff`) does satisfy
the claim: a success carries text with nonempty strip, and a missing file,
empty content or read exception exits 1.  Webpage acquisition does NOT: on
a fetch failure `fetch_webpage` returns the placeholder text
`"Failed to fetch content from {url}. Error: {e}"` instead of failing, and
`competitor_analyzer.main` always proceeds to the extraction stage
(step 2) whatever the fetch outcome was. -/
theorem spec2proof_C5_acquisition :
    (∀ src o s, read_diff src o = .ok s → (pyStrip s).isEmpty = false)
    ∧ (∀ src o e, read_diff src o = .error e → e.code = 1)
    ∧ (∀ url e, fetch_webpage url (.error e)
        = str "Failed to fetch content from " ++ url ++ str ". Error: " ++ e)
    ∧ (∀ env : CAEnv, ¬ env.argv.length < 3 → env.apiKey ≠ none →
        2 ∈ (competitor_main env).1) := by
  refine ⟨?_, ?_, fun url e => rfl, ?_⟩
  · intro src o s h
    cases o with
    | content t =>
      simp only [read_diff] at h
      split at h
      · exact absurd h (by simp)
      · injection h with hs
        subst hs
        rename_i hne
        simp only [Bool.not_eq_true] at hne
        exact hne
    | notFound => exact absurd h (by simp [read_diff])
    | readError m => exact absurd h (by simp [read_diff])
  · intro src o e h
    exact (read_diff_error h).1
  · intro env h3 hk
    unfold competitor_main
    rw [if_neg h3]
    cases hk' : env.apiKey with
    | none => exact absurd hk' hk
    | some a =>
      simp only [create_client]
      cases extract_key_info env.r2 with
      | error pe => obtain ⟨k, e⟩ := pe; simp
      | ok info =>
        cases compare_products env.r3 with
        | error pe => obtain ⟨k, e⟩ := pe; simp
        | ok comparison =>
          cases generate_swot env.r4 with
          | error pe => obtain ⟨k, e⟩ := pe; simp
          | ok swot =>
            cases generate_positioning_strategy env.r5 with
            | error pe => obtain ⟨k, e⟩ := pe; simp
            | ok strategy => simp

/-- Claim C5, witness: the amended theorem applied to concrete outcomes —
a successful read, a missing input file, a failing fetch, and a full
competitor run whose fetch failed but whose extraction stage still ran. -/
theorem spec2proof_C5_acquisition_witness :
    (pyStrip (str "some diff")).isEmpty = false
    ∧ (⟨1, [(Chan.stderr, str "ERROR: File not found: x.diff")]⟩ : ExitInfo).code = 1
    ∧ fetch_webpage (str "https://u.example") (.error (str "timeout"))
        = str "Failed to fetch content from " ++ str "https://u.example"
          ++ str ". Error: " ++ str "timeout"
    ∧ 2 ∈ (competitor_main
        ⟨[str "competitor_analyzer.py", str "https://u.example", str "P"],
          some (str "key"), .error (str "timeout"), .ok (str "\x7b\x7d"),
          .ok [], .ok [], .ok []⟩).1 :=
  ⟨spec2proof_C5_acquisition.1 (str "x.diff") (.content (str "some diff"))
      (str "some diff") rfl,
   spec2proof_C5_acquisition.2.1 (str "x.diff") .notFound _ rfl,
   spec2proof_C5_acquisition.2.2.1 (str "https://u.example") (str "timeout"),
   spec2proof_C5_acquisition.2.2.2 _ (by decide) (by decide)⟩

end PromptVault
